import Mathlib

/-!
Verification development for the neuroglancer annotation subsystem:
the property layout engine, geometry codecs, annotation store with
commit/pending semantics, binary serializer, and picking resolver.

Machine values are modelled as follows: float32 components are carried as
their 32-bit patterns (`Nat` below `2 ^ 32`); byte buffers (`DataView` /
`ArrayBuffer`) are total functions from byte index to byte value; JS `Map`
and `Set` are insertion-ordered association lists respectively duplicate-free
string lists; thrown exceptions are `Except String`.
-/

namespace NG

/-- String constants used by the embedding (kept as named definitions). -/
def emptyStr : String := ""

def noId : String := ""

def errIdExists : String := "Annotation id already exists"

def errAlreadyDeleted : String := "Annotation already deleted"

/-! ## Property layout engine (`annotationPropertyTypeHandlers`, `getPropertyOffsets`) -/

/-- The nine property types of `AnnotationPropertySpec['type']`. -/
inductive PropType
  | rgb
  | rgba
  | float32
  | uint32
  | int32
  | uint16
  | int16
  | uint8
  | int8
deriving DecidableEq, Repr

/-- `annotationPropertyTypeHandlers[t].serializedBytes(rank)`; every handler
ignores its rank argument.  Note `int8` reports 2 bytes, as in the source. -/
def PropType.serializedBytes (t : PropType) (_rank : Nat) : Nat :=
  match t with
  | .rgb => 3
  | .rgba => 4
  | .float32 => 4
  | .uint32 => 4
  | .int32 => 4
  | .uint16 => 2
  | .int16 => 2
  | .uint8 => 1
  | .int8 => 2

/-- `annotationPropertyTypeHandlers[t].alignment(rank)`. -/
def PropType.alignment (t : PropType) (_rank : Nat) : Nat :=
  match t with
  | .rgb => 1
  | .rgba => 1
  | .float32 => 4
  | .uint32 => 4
  | .int32 => 4
  | .uint16 => 2
  | .int16 => 2
  | .uint8 => 1
  | .int8 => 1

/-- `AnnotationPropertySpec` (min/max/step are irrelevant to the layout). -/
structure PropSpec where
  identifier : String
  description : Option String
  type : PropType
  default : Int
deriving DecidableEq, Repr

/-- `getAlignment(i)` from `getPropertyOffsets`: alignment of property `i`
(out-of-range indices never occur; they default to alignment 1). -/
def getAlignment (rank : Nat) (specs : List PropSpec) (i : Nat) : Nat :=
  match specs.get? i with
  | some s => s.type.alignment rank
  | none => 1

/-- Byte size of property `i` (0 when out of range). -/
def getBytes (rank : Nat) (specs : List PropSpec) (i : Nat) : Nat :=
  match specs.get? i with
  | some s => s.type.serializedBytes rank
  | none => 0

/-- Insert `i` after every element whose key is at least `key i`
(stable descending insertion). -/
def insertDescBy (key : Nat → Nat) (i : Nat) : List Nat → List Nat
  | [] => [i]
  | j :: rest => if key i ≤ key j then j :: insertDescBy key i rest else i :: j :: rest

/-- Stable sort by descending key, the behaviour of the JS stable
`permutation.sort((i, j) => getAlignment(j) - getAlignment(i))`. -/
def sortDescBy (key : Nat → Nat) (l : List Nat) : List Nat :=
  l.foldl (fun acc i => insertDescBy key i acc) []

/-- The placement loop of `getPropertyOffsets`: walk the sorted permutation,
pad the running offset up to the property's alignment, record the offset,
advance by the property's size.  Returns
(end offset, association list propertyIndex ↦ offset, total padding inserted). -/
def layoutWalk (rank : Nat) (specs : List PropSpec) :
    List Nat → Nat → Nat × List (Nat × Nat) × Nat
  | [], acc => (acc, [], 0)
  | p :: rest, acc =>
      let a := getAlignment rank specs p
      let pad := (a - acc % a) % a
      let off := acc + pad
      let nb := getBytes rank specs p
      let r := layoutWalk rank specs rest (off + nb)
      (r.1, (p, off) :: r.2.1, pad + r.2.2)

/-- `getPropertyOffsets(rank, propertySpecs)`: returns
`(serializedBytes, offsets)` with `offsets` indexed by original property
position; the total is padded up to a multiple of 4. -/
def getPropertyOffsets (rank : Nat) (specs : List PropSpec) : Nat × List Nat :=
  let perm := sortDescBy (getAlignment rank specs) (List.range specs.length)
  let r := layoutWalk rank specs perm 0
  let sb := r.1 + (4 - r.1 % 4) % 4
  (sb, (List.range specs.length).map (fun i => (List.lookup i r.2.1).getD 0))

/-- Total alignment padding inserted before properties by the placement loop
(the final pad of the total size up to a multiple of 4 is accounted
separately by the `% 4` clause). -/
def layoutPaddingSum (rank : Nat) (specs : List PropSpec) : Nat :=
  (layoutWalk rank specs (sortDescBy (getAlignment rank specs) (List.range specs.length)) 0).2.2

/-- Maximum alignment among the schema's properties. -/
def maxAlignment (rank : Nat) (specs : List PropSpec) : Nat :=
  specs.foldr (fun sp m => max (sp.type.alignment rank) m) 0

/-- The `uint8` property of the spec's layout example. -/
def exU8 : PropSpec := { identifier := "a", description := none, type := .uint8, default := 0 }

/-- The `float32` property of the spec's layout example. -/
def exF32 : PropSpec := { identifier := "b", description := none, type := .float32, default := 0 }

lemma alignment_pos (t : PropType) (rank : Nat) : 0 < t.alignment rank := by
  cases t <;> norm_num [PropType.alignment]

lemma alignment_cases (t : PropType) (rank : Nat) :
    t.alignment rank = 1 ∨ t.alignment rank = 2 ∨ t.alignment rank = 4 := by
  cases t <;> simp [PropType.alignment]

lemma alignment_dvd_serializedBytes (t : PropType) (rank : Nat) :
    t.alignment rank ∣ t.serializedBytes rank := by
  cases t <;> simp [PropType.alignment, PropType.serializedBytes]

lemma getAlignment_pos (rank : Nat) (specs : List PropSpec) (i : Nat) :
    0 < getAlignment rank specs i := by
  unfold getAlignment
  cases specs.get? i with
  | none => exact Nat.one_pos
  | some s => exact alignment_pos s.type rank

lemma getAlignment_cases (rank : Nat) (specs : List PropSpec) (i : Nat) :
    getAlignment rank specs i = 1 ∨ getAlignment rank specs i = 2 ∨
      getAlignment rank specs i = 4 := by
  unfold getAlignment
  cases specs.get? i with
  | none => simp
  | some s => exact alignment_cases s.type rank

lemma getAlignment_dvd_getBytes (rank : Nat) (specs : List PropSpec) (i : Nat) :
    getAlignment rank specs i ∣ getBytes rank specs i := by
  unfold getAlignment getBytes
  cases specs.get? i with
  | none => simp
  | some s => exact alignment_dvd_serializedBytes s.type rank

lemma getAlignment_dvd_of_le (rank : Nat) (specs : List PropSpec) (i j : Nat)
    (hle : getAlignment rank specs i ≤ getAlignment rank specs j) :
    getAlignment rank specs i ∣ getAlignment rank specs j := by
  rcases getAlignment_cases rank specs i with hi | hi | hi <;>
    rcases getAlignment_cases rank specs j with hj | hj | hj <;>
      rw [hi, hj] at hle ⊢ <;> omega

lemma insertDescBy_perm (key : Nat → Nat) (i : Nat) (l : List Nat) :
    List.Perm (insertDescBy key i l) (i :: l) := by
  induction l with
  | nil => simp [insertDescBy]
  | cons j rest ih =>
      unfold insertDescBy
      by_cases h : key i ≤ key j
      · rw [if_pos h]
        exact (ih.cons j).trans (List.Perm.swap i j rest)
      · rw [if_neg h]

lemma sortDescBy_core_perm (key : Nat → Nat) (l : List Nat) :
    ∀ acc : List Nat, List.Perm (l.foldl (fun a i => insertDescBy key i a) acc) (l ++ acc) := by
  induction l with
  | nil => intro acc; simp
  | cons x rest ih =>
      intro acc
      have h1 := ih (insertDescBy key x acc)
      have h2 : List.Perm (rest ++ insertDescBy key x acc) (rest ++ (x :: acc)) :=
        List.Perm.append_left rest (insertDescBy_perm key x acc)
      have h3 : List.Perm (rest ++ (x :: acc)) (x :: (rest ++ acc)) := List.perm_middle
      simpa using (h1.trans h2).trans h3

lemma sortDescBy_perm (key : Nat → Nat) (l : List Nat) :
    List.Perm (sortDescBy key l) l := by
  have h := sortDescBy_core_perm key l []
  simpa [sortDescBy] using h

lemma insertDescBy_pairwise (key : Nat → Nat) (i : Nat) (l : List Nat)
    (h : l.Pairwise (fun a b => key b ≤ key a)) :
    (insertDescBy key i l).Pairwise (fun a b => key b ≤ key a) := by
  induction l with
  | nil => simp [insertDescBy]
  | cons j rest ih =>
      rw [List.pairwise_cons] at h
      obtain ⟨hj, hrest⟩ := h
      unfold insertDescBy
      by_cases hle : key i ≤ key j
      · rw [if_pos hle]
        rw [List.pairwise_cons]
        refine ⟨?_, ih hrest⟩
        intro x hx
        have hx' := (insertDescBy_perm key i rest).mem_iff.mp hx
        rcases List.mem_cons.mp hx' with rfl | hx''
        · exact hle
        · exact hj x hx''
      · rw [if_neg hle]
        rw [List.pairwise_cons]
        refine ⟨?_, by rw [List.pairwise_cons]; exact ⟨hj, hrest⟩⟩
        intro x hx
        rcases List.mem_cons.mp hx with rfl | hx''
        · omega
        · exact le_trans (hj x hx'') (by omega)

lemma sortDescBy_pairwise (key : Nat → Nat) (l : List Nat) :
    (sortDescBy key l).Pairwise (fun a b => key b ≤ key a) := by
  suffices h : ∀ acc : List Nat, acc.Pairwise (fun a b => key b ≤ key a) →
      (l.foldl (fun a i => insertDescBy key i a) acc).Pairwise (fun a b => key b ≤ key a) by
    exact h [] (by simp)
  induction l with
  | nil => intro acc hacc; simpa using hacc
  | cons x rest ih =>
      intro acc hacc
      exact ih (insertDescBy key x acc) (insertDescBy_pairwise key x acc hacc)

/-- Core invariant of the placement loop: on a duplicate-free list sorted by
descending alignment, with the running offset divisible by every remaining
alignment, no padding is ever inserted and every recorded offset is aligned. -/
lemma layoutWalk_spec (rank : Nat) (specs : List PropSpec) :
    ∀ (l : List Nat) (acc : Nat),
      l.Pairwise (fun a b => getAlignment rank specs b ≤ getAlignment rank specs a) →
      l.Nodup →
      (∀ p ∈ l, getAlignment rank specs p ∣ acc) →
      (layoutWalk rank specs l acc).2.2 = 0 ∧
        ∀ p ∈ l, ∃ off, List.lookup p (layoutWalk rank specs l acc).2.1 = some off ∧
          getAlignment rank specs p ∣ off := by
  intro l
  induction l with
  | nil => intro acc _ _ _; exact ⟨rfl, by simp⟩
  | cons p rest ih =>
      intro acc hsort hnodup hdvd
      rw [List.pairwise_cons] at hsort
      obtain ⟨hp_ge, hrest_sort⟩ := hsort
      rw [List.nodup_cons] at hnodup
      obtain ⟨hp_notin, hrest_nodup⟩ := hnodup
      have ha : getAlignment rank specs p ∣ acc := hdvd p (List.mem_cons_self p rest)
      have hmod : acc % getAlignment rank specs p = 0 :=
        Nat.dvd_iff_mod_eq_zero.mp ha
      have hpad : (getAlignment rank specs p - acc % getAlignment rank specs p) %
          getAlignment rank specs p = 0 := by
        rw [hmod]; simp
      have hstep : layoutWalk rank specs (p :: rest) acc
          = ((layoutWalk rank specs rest (acc + getBytes rank specs p)).1,
             (p, acc) :: (layoutWalk rank specs rest (acc + getBytes rank specs p)).2.1,
             (layoutWalk rank specs rest (acc + getBytes rank specs p)).2.2) := by
        simp only [layoutWalk]
        rw [hpad]
        simp
      have hdvd' : ∀ q ∈ rest, getAlignment rank specs q ∣
          acc + getBytes rank specs p := by
        intro q hq
        have h1 : getAlignment rank specs q ∣ acc := hdvd q (List.mem_cons_of_mem p hq)
        have h2 : getAlignment rank specs q ∣ getBytes rank specs p :=
          dvd_trans (getAlignment_dvd_of_le rank specs q p (hp_ge q hq))
            (getAlignment_dvd_getBytes rank specs p)
        exact Nat.dvd_add h1 h2
      obtain ⟨hpad_rest, hlookup_rest⟩ :=
        ih (acc + getBytes rank specs p) hrest_sort hrest_nodup hdvd'
      rw [hstep]
      constructor
      · exact hpad_rest
      · intro q hq
        rcases List.mem_cons.mp hq with rfl | hq'
        · exact ⟨acc, by simp [List.lookup], ha⟩
        · obtain ⟨off, hoff, hdvdoff⟩ := hlookup_rest q hq'
          refine ⟨off, ?_, hdvdoff⟩
          have hne : (q == p) = false := beq_eq_false_iff_ne.mpr (fun h => hp_notin (h ▸ hq'))
          simp [List.lookup, hne, hoff]

/-- C4.  Property layout correctness of `getPropertyOffsets`: every assigned
offset is a multiple of its property's alignment, the returned
`serializedBytes` is a multiple of 4, the alignment padding inserted between
properties sums to strictly less than the schema's maximum alignment, and the
spec's example schema `rank=2, [uint8, float32]` yields offsets `[4, 0]` and
`serializedBytes = 8`. -/
theorem c4_property_layout : ∀ (rank : Nat) (specs : List PropSpec),
    (∀ i, i < specs.length →
       ((getPropertyOffsets rank specs).2.getD i 0) % getAlignment rank specs i = 0) ∧
    (getPropertyOffsets rank specs).1 % 4 = 0 ∧
    (specs ≠ [] → layoutPaddingSum rank specs < maxAlignment rank specs) ∧
    getPropertyOffsets 2 [exU8, exF32] = (8, [4, 0]) := by
  intro rank specs
  have hperm := sortDescBy_perm (getAlignment rank specs) (List.range specs.length)
  have hsort := sortDescBy_pairwise (getAlignment rank specs) (List.range specs.length)
  have hnodup : (sortDescBy (getAlignment rank specs) (List.range specs.length)).Nodup :=
    hperm.nodup_iff.mpr (List.nodup_range _)
  obtain ⟨hpadzero, hlook⟩ := layoutWalk_spec rank specs
    (sortDescBy (getAlignment rank specs) (List.range specs.length)) 0 hsort hnodup
    (fun p _ => dvd_zero _)
  refine ⟨?_, ?_, ?_, by decide⟩
  · intro i hi
    have hin : i ∈ sortDescBy (getAlignment rank specs) (List.range specs.length) :=
      hperm.mem_iff.mpr (List.mem_range.mpr hi)
    obtain ⟨off, hoff, hdvd⟩ := hlook i hin
    have hval : (getPropertyOffsets rank specs).2.getD i 0 = off := by
      simp [getPropertyOffsets, List.getD, List.getElem?_map, List.getElem?_range, hi, hoff]
    rw [hval]
    exact Nat.dvd_iff_mod_eq_zero.mp hdvd
  · simp only [getPropertyOffsets]
    omega
  · intro hne
    have hzero : layoutPaddingSum rank specs = 0 := hpadzero
    rw [hzero]
    cases specs with
    | nil => exact absurd rfl hne
    | cons sp rest =>
        exact lt_of_lt_of_le (alignment_pos sp.type rank) (le_max_left _ _)

/-- Witness for C4 at the concrete example schema. -/
theorem c4_property_layout_witness :
    (((getPropertyOffsets 2 [exU8, exF32]).2.getD 0 0) % getAlignment 2 [exU8, exF32] 0 = 0) ∧
    (getPropertyOffsets 2 [exU8, exF32]).1 % 4 = 0 ∧
    layoutPaddingSum 2 [exU8, exF32] < maxAlignment 2 [exU8, exF32] ∧
    getPropertyOffsets 2 [exU8, exF32] = (8, [4, 0]) :=
  ⟨(c4_property_layout 2 [exU8, exF32]).1 0 (by decide),
   (c4_property_layout 2 [exU8, exF32]).2.1,
   (c4_property_layout 2 [exU8, exF32]).2.2.1 (by decide),
   (c4_property_layout 2 [exU8, exF32]).2.2.2⟩

/-! ## Byte buffers and the geometry type codecs (`typeHandlers`) -/

/-- A `DataView`/`ArrayBuffer`: a total map from byte index to byte value
(buffers are zero-initialised at allocation). -/
abbrev Buf := Nat → Nat

/-- The zero-filled buffer of `new ArrayBuffer(n)`. -/
def zeroBuf : Buf := fun _ => 0

/-- Byte `k` (0-based in memory order) of the float32 pattern `w` under the
given endianness: little-endian stores the least significant byte first. -/
def byteOf (w : Nat) (isLE : Bool) (k : Nat) : Nat :=
  (w / 256 ^ (if isLE then k else 3 - k)) % 256

/-- `DataView.setFloat32(off, value, isLittleEndian)` on the pattern level:
writes the four bytes of the 32-bit pattern `w` at `off .. off+3`. -/
def dvSetFloat32 (b : Buf) (off : Nat) (w : Nat) (isLE : Bool) : Buf := fun i =>
  if i = off then byteOf w isLE 0
  else if i = off + 1 then byteOf w isLE 1
  else if i = off + 2 then byteOf w isLE 2
  else if i = off + 3 then byteOf w isLE 3
  else b i

/-- `DataView.getFloat32(off, isLittleEndian)` on the pattern level:
reassembles the 32-bit pattern from the four bytes at `off .. off+3`. -/
def dvGetFloat32 (b : Buf) (off : Nat) (isLE : Bool) : Nat :=
  if isLE then
    b off + 256 * b (off + 1) + 65536 * b (off + 2) + 16777216 * b (off + 3)
  else
    b (off + 3) + 256 * b (off + 2) + 65536 * b (off + 1) + 16777216 * b off

/-- Bit pattern of the canonical JS `NaN` (what a `Float32Array` stores for
an out-of-range `undefined` read). -/
def nanF32 : Nat := 2143289344

/-- `serializeFloatVector`: writes the first `rank` components of `vec` as
consecutive float32 values starting at `off`. -/
def serializeFloatVector (b : Buf) (off : Nat) (isLE : Bool) :
    Nat → List Nat → Buf
  | 0, _ => b
  | r + 1, vec =>
      serializeFloatVector (dvSetFloat32 b off (vec.headD nanF32) isLE) (off + 4) isLE r vec.tail

/-- `deserializeFloatVector`: reads `rank` consecutive float32 values
starting at `off`. -/
def deserializeFloatVector (b : Buf) (off : Nat) (isLE : Bool) : Nat → List Nat
  | 0 => []
  | r + 1 => dvGetFloat32 b off isLE :: deserializeFloatVector b (off + 4) isLE r

/-- `serializeTwoFloatVectors`: vector A at `off`, vector B right after it. -/
def serializeTwoFloatVectors (b : Buf) (off : Nat) (isLE : Bool) (rank : Nat)
    (vecA vecB : List Nat) : Buf :=
  serializeFloatVector (serializeFloatVector b off isLE rank vecA) (off + 4 * rank) isLE rank vecB

lemma byteOf_lt (w : Nat) (isLE : Bool) (k : Nat) : byteOf w isLE k < 256 := by
  unfold byteOf
  exact Nat.mod_lt _ (by norm_num)

lemma dvSetFloat32_out (b : Buf) (off w : Nat) (isLE : Bool) (i : Nat)
    (h : i < off) : dvSetFloat32 b off w isLE i = b i := by
  unfold dvSetFloat32
  rw [if_neg (by omega), if_neg (by omega), if_neg (by omega), if_neg (by omega)]

lemma dvGet_dvSet (b : Buf) (off w : Nat) (isLE : Bool) (hw : w < 2 ^ 32) :
    dvGetFloat32 (dvSetFloat32 b off w isLE) off isLE = w := by
  have h0 : dvSetFloat32 b off w isLE off = byteOf w isLE 0 := by
    unfold dvSetFloat32; rw [if_pos rfl]
  have h1 : dvSetFloat32 b off w isLE (off + 1) = byteOf w isLE 1 := by
    unfold dvSetFloat32; rw [if_neg (by omega), if_pos rfl]
  have h2 : dvSetFloat32 b off w isLE (off + 2) = byteOf w isLE 2 := by
    unfold dvSetFloat32; rw [if_neg (by omega), if_neg (by omega), if_pos rfl]
  have h3 : dvSetFloat32 b off w isLE (off + 3) = byteOf w isLE 3 := by
    unfold dvSetFloat32
    rw [if_neg (by omega), if_neg (by omega), if_neg (by omega), if_pos rfl]
  cases isLE with
  | true =>
      simp only [dvGetFloat32, if_pos, h0, h1, h2, h3, byteOf, if_true]
      norm_num
      omega
  | false =>
      simp only [dvGetFloat32, h0, h1, h2, h3, byteOf]
      norm_num
      omega

lemma serializeFloatVector_out (isLE : Bool) :
    ∀ (rank : Nat) (vec : List Nat) (b : Buf) (off i : Nat), i < off →
      serializeFloatVector b off isLE rank vec i = b i := by
  intro rank
  induction rank with
  | zero => intro vec b off i _; rfl
  | succ r ih =>
      intro vec b off i hi
      show serializeFloatVector (dvSetFloat32 b off (vec.headD nanF32) isLE)
        (off + 4) isLE r vec.tail i = b i
      rw [ih vec.tail _ (off + 4) i (by omega)]
      exact dvSetFloat32_out b off _ isLE i hi

lemma deserializeFloatVector_congr (isLE : Bool) :
    ∀ (rank : Nat) (b1 b2 : Buf) (off : Nat),
      (∀ i, i < off + 4 * rank → b1 i = b2 i) →
      deserializeFloatVector b1 off isLE rank = deserializeFloatVector b2 off isLE rank := by
  intro rank
  induction rank with
  | zero => intro b1 b2 off _; rfl
  | succ r ih =>
      intro b1 b2 off hag
      show dvGetFloat32 b1 off isLE :: deserializeFloatVector b1 (off + 4) isLE r
        = dvGetFloat32 b2 off isLE :: deserializeFloatVector b2 (off + 4) isLE r
      have hhead : dvGetFloat32 b1 off isLE = dvGetFloat32 b2 off isLE := by
        unfold dvGetFloat32
        rw [hag off (by omega), hag (off + 1) (by omega), hag (off + 2) (by omega),
          hag (off + 3) (by omega)]
      rw [hhead, ih b1 b2 (off + 4) (fun i hi => hag i (by omega))]

/-- Round-trip of one rank-length float32 vector at the pattern level. -/
lemma deserialize_serialize_vec (isLE : Bool) :
    ∀ (rank : Nat) (vec : List Nat) (b : Buf) (off : Nat),
      vec.length = rank → (∀ w ∈ vec, w < 2 ^ 32) →
      deserializeFloatVector (serializeFloatVector b off isLE rank vec) off isLE rank = vec := by
  intro rank
  induction rank with
  | zero =>
      intro vec b off hlen _
      obtain rfl := List.length_eq_zero.mp hlen
      rfl
  | succ r ih =>
      intro vec b off hlen hfin
      cases vec with
      | nil => simp at hlen
      | cons w vs =>
          show dvGetFloat32 (serializeFloatVector (dvSetFloat32 b off _ isLE)
              (off + 4) isLE r vs) off isLE
            :: deserializeFloatVector (serializeFloatVector (dvSetFloat32 b off _ isLE)
              (off + 4) isLE r vs) (off + 4) isLE r = w :: vs
          have hhead : dvGetFloat32 (serializeFloatVector
              (dvSetFloat32 b off (List.headD (w :: vs) nanF32) isLE) (off + 4) isLE r vs)
              off isLE = w := by
            have hag : ∀ i, i < off + 4 →
                serializeFloatVector (dvSetFloat32 b off (List.headD (w :: vs) nanF32) isLE)
                  (off + 4) isLE r vs i
                = dvSetFloat32 b off (List.headD (w :: vs) nanF32) isLE i :=
              fun i hi => serializeFloatVector_out isLE r vs _ (off + 4) i hi
            unfold dvGetFloat32
            cases isLE with
            | true =>
                rw [if_pos rfl, hag off (by omega), hag (off + 1) (by omega),
                  hag (off + 2) (by omega), hag (off + 3) (by omega)]
                have := dvGet_dvSet b off w true (hfin w (List.mem_cons_self w vs))
                simpa [dvGetFloat32] using this
            | false =>
                rw [if_neg (by simp), hag off (by omega), hag (off + 1) (by omega),
                  hag (off + 2) (by omega), hag (off + 3) (by omega)]
                have := dvGet_dvSet b off w false (hfin w (List.mem_cons_self w vs))
                simpa [dvGetFloat32] using this
          rw [hhead]
          have htail := ih vs (dvSetFloat32 b off (List.headD (w :: vs) nanF32) isLE) (off + 4)
            (by simpa using hlen) (fun x hx => hfin x (List.mem_cons_of_mem w hx))
          rw [htail]

/-- `AnnotationType`. -/
inductive AnnotationType
  | POINT
  | LINE
  | AXIS_ALIGNED_BOUNDING_BOX
  | ELLIPSOID
deriving DecidableEq, Repr

/-- `annotationTypes`, the fixed geometry-kind order shared by the serializer
and the picking resolver. -/
def annotationTypes : List AnnotationType :=
  [.POINT, .LINE, .AXIS_ALIGNED_BOUNDING_BOX, .ELLIPSOID]

/-- The geometric payload of the `Annotation` tagged union; vector components
are float32 bit patterns. -/
inductive Geom
  | point (point : List Nat)
  | line (pointA pointB : List Nat)
  | box (pointA pointB : List Nat)
  | ellipsoid (center radii : List Nat)
deriving DecidableEq, Repr

/-- The `type` tag of a geometric payload. -/
def Geom.kind : Geom → AnnotationType
  | .point _ => .POINT
  | .line _ _ => .LINE
  | .box _ _ => .AXIS_ALIGNED_BOUNDING_BOX
  | .ellipsoid _ _ => .ELLIPSOID

/-- An `Annotation` record.  `description` distinguishes absent (`none`) from
explicitly-null (`some none`); `relatedSegments` is one list of uint64 ids per
relationship when present; property values are the JS numbers of the
`properties` array. -/
structure Ann where
  id : String
  description : Option (Option String)
  relatedSegments : Option (List (List Nat))
  properties : List Int
  geometry : Geom
deriving DecidableEq, Repr

/-- `typeHandlers.get(t).serializedBytes(rank)`: one rank-length float32
vector for points, two for the other kinds. -/
def handlerSerializedBytes (t : AnnotationType) (rank : Nat) : Nat :=
  match t with
  | .POINT => rank * 4
  | .LINE => 2 * 4 * rank
  | .AXIS_ALIGNED_BOUNDING_BOX => 2 * 4 * rank
  | .ELLIPSOID => 2 * 4 * rank

/-- `deserializeTwoFloatVectors`: vector A at `off`, vector B right after. -/
def deserializeTwoFloatVectors (b : Buf) (off : Nat) (isLE : Bool) (rank : Nat) :
    List Nat × List Nat :=
  (deserializeFloatVector b off isLE rank, deserializeFloatVector b (off + 4 * rank) isLE rank)

/-- `typeHandlers.get(t).serialize`: writes the record's geometric vectors. -/
def handlerSerialize (g : Geom) (b : Buf) (off : Nat) (isLE : Bool) (rank : Nat) : Buf :=
  match g with
  | .point p => serializeFloatVector b off isLE rank p
  | .line vA vB => serializeTwoFloatVectors b off isLE rank vA vB
  | .box vA vB => serializeTwoFloatVectors b off isLE rank vA vB
  | .ellipsoid c r => serializeTwoFloatVectors b off isLE rank c r

/-- `typeHandlers.get(t).deserialize`: reads the geometric vectors back and
returns a fresh record with empty `properties` (the caller attaches them). -/
def handlerDeserialize (t : AnnotationType) (b : Buf) (off : Nat) (isLE : Bool)
    (rank : Nat) (id : String) : Ann :=
  match t with
  | .POINT =>
      { id := id, description := none, relatedSegments := none, properties := [],
        geometry := .point (deserializeFloatVector b off isLE rank) }
  | .LINE =>
      { id := id, description := none, relatedSegments := none, properties := [],
        geometry := .line (deserializeTwoFloatVectors b off isLE rank).1
          (deserializeTwoFloatVectors b off isLE rank).2 }
  | .AXIS_ALIGNED_BOUNDING_BOX =>
      { id := id, description := none, relatedSegments := none, properties := [],
        geometry := .box (deserializeTwoFloatVectors b off isLE rank).1
          (deserializeTwoFloatVectors b off isLE rank).2 }
  | .ELLIPSOID =>
      { id := id, description := none, relatedSegments := none, properties := [],
        geometry := .ellipsoid (deserializeTwoFloatVectors b off isLE rank).1
          (deserializeTwoFloatVectors b off isLE rank).2 }

/-- A 32-bit pattern denotes a finite float32 value when its exponent bits
are not all ones. -/
def finiteF32B (w : Nat) : Bool :=
  decide (w < 2 ^ 32) && decide ((w / 2 ^ 23) % 256 ≠ 255)

/-- A finite, non-negative float32 pattern (sign bit clear, or negative
zero, which JS accepts as `>= 0`). -/
def nonNegF32B (w : Nat) : Bool :=
  finiteF32B w && (decide (w < 2 ^ 31) || decide (w = 2 ^ 31))

/-- Every geometric vector of `g` has exactly `rank` components. -/
def geomLens (g : Geom) (rank : Nat) : Prop :=
  match g with
  | .point p => p.length = rank
  | .line vA vB => vA.length = rank ∧ vB.length = rank
  | .box vA vB => vA.length = rank ∧ vB.length = rank
  | .ellipsoid c r => c.length = rank ∧ r.length = rank

/-- Every geometric component of `g` is a finite float32 pattern. -/
def geomFinite (g : Geom) : Prop :=
  match g with
  | .point p => p.all finiteF32B = true
  | .line vA vB => vA.all finiteF32B = true ∧ vB.all finiteF32B = true
  | .box vA vB => vA.all finiteF32B = true ∧ vB.all finiteF32B = true
  | .ellipsoid c r => c.all finiteF32B = true ∧ r.all finiteF32B = true

lemma finiteF32B_lt (w : Nat) (h : finiteF32B w = true) : w < 2 ^ 32 := by
  unfold finiteF32B at h
  rw [Bool.and_eq_true] at h
  exact of_decide_eq_true h.1

lemma all_finite_lt (v : List Nat) (h : v.all finiteF32B = true) :
    ∀ w ∈ v, w < 2 ^ 32 := by
  intro w hw
  exact finiteF32B_lt w (by rw [List.all_eq_true] at h; exact h w hw)

/-- Round-trip of the two-vector codecs. -/
lemma deserialize_serialize_two (isLE : Bool) (rank : Nat) (vA vB : List Nat)
    (b : Buf) (off : Nat) (hA : vA.length = rank) (hB : vB.length = rank)
    (hAf : ∀ w ∈ vA, w < 2 ^ 32) (hBf : ∀ w ∈ vB, w < 2 ^ 32) :
    deserializeTwoFloatVectors (serializeTwoFloatVectors b off isLE rank vA vB)
      off isLE rank = (vA, vB) := by
  unfold deserializeTwoFloatVectors serializeTwoFloatVectors
  have hsecond :
      deserializeFloatVector (serializeFloatVector
        (serializeFloatVector b off isLE rank vA) (off + 4 * rank) isLE rank vB)
        (off + 4 * rank) isLE rank = vB :=
    deserialize_serialize_vec isLE rank vB _ (off + 4 * rank) hB hBf
  have hfirst :
      deserializeFloatVector (serializeFloatVector
        (serializeFloatVector b off isLE rank vA) (off + 4 * rank) isLE rank vB)
        off isLE rank = vA := by
    have hcongr := deserializeFloatVector_congr isLE rank
      (serializeFloatVector (serializeFloatVector b off isLE rank vA)
        (off + 4 * rank) isLE rank vB)
      (serializeFloatVector b off isLE rank vA) off
      (fun i hi => serializeFloatVector_out isLE rank vB _ (off + 4 * rank) i (by omega))
    rw [hcongr]
    exact deserialize_serialize_vec isLE rank vA b off hA hAf
  rw [hfirst, hsecond]

/-- C3.  Binary geometry round-trip: for every geometry kind, every rank and
every record whose vectors have `rank` finite float32 components,
deserializing the serialized bytes at the same offset, endianness and rank
reproduces the record exactly (the deserialized record carries the passed id,
no description, no related segments and empty properties, as in the source). -/
theorem c3_geometry_round_trip :
    ∀ (g : Geom) (b : Buf) (off : Nat) (isLE : Bool) (rank : Nat) (id : String),
      geomLens g rank → geomFinite g →
      handlerDeserialize g.kind (handlerSerialize g b off isLE rank) off isLE rank id
        = { id := id, description := none, relatedSegments := none, properties := [],
            geometry := g } := by
  intro g b off isLE rank id hlen hfin
  cases g with
  | point p =>
      show handlerDeserialize .POINT _ off isLE rank id = _
      unfold handlerDeserialize handlerSerialize
      rw [deserialize_serialize_vec isLE rank p b off hlen (all_finite_lt p hfin)]
  | line vA vB =>
      show handlerDeserialize .LINE _ off isLE rank id = _
      unfold handlerDeserialize handlerSerialize
      rw [deserialize_serialize_two isLE rank vA vB b off hlen.1 hlen.2
        (all_finite_lt vA hfin.1) (all_finite_lt vB hfin.2)]
  | box vA vB =>
      show handlerDeserialize .AXIS_ALIGNED_BOUNDING_BOX _ off isLE rank id = _
      unfold handlerDeserialize handlerSerialize
      rw [deserialize_serialize_two isLE rank vA vB b off hlen.1 hlen.2
        (all_finite_lt vA hfin.1) (all_finite_lt vB hfin.2)]
  | ellipsoid c r =>
      show handlerDeserialize .ELLIPSOID _ off isLE rank id = _
      unfold handlerDeserialize handlerSerialize
      rw [deserialize_serialize_two isLE rank c r b off hlen.1 hlen.2
        (all_finite_lt c hfin.1) (all_finite_lt r hfin.2)]

/-- Witness for C3: a rank-2 line with components 1.0 and -2.5 (patterns
0x3F800000, 0xC0200000, 0x40490FDB, 0x3DCCCCCD) round-trips at offset 8,
little-endian. -/
theorem c3_geometry_round_trip_witness :
    handlerDeserialize (Geom.line [1065353216, 3223322624] [1078530011, 1036831949]).kind
        (handlerSerialize (Geom.line [1065353216, 3223322624] [1078530011, 1036831949])
          zeroBuf 8 true 2) 8 true 2 "w3"
      = { id := "w3", description := none, relatedSegments := none, properties := [],
          geometry := Geom.line [1065353216, 3223322624] [1078530011, 1036831949] } :=
  c3_geometry_round_trip (Geom.line [1065353216, 3223322624] [1078530011, 1036831949])
    zeroBuf 8 true 2 "w3" (by constructor <;> rfl) (by constructor <;> rfl)

/-! ## Binary serializer (`serializeAnnotations`) and picking resolver
(`updateMouseState`) -/

/-- The `AnnotationPropertySerializer` interface consumed by
`serializeAnnotations`: the coordinate rank, the packed property byte size,
and the property-encoding routine. -/
structure PropSerializer where
  rank : Nat
  serializedBytes : Nat
  serialize : Buf → Nat → Bool → List Int → Buf

/-- `SerializedAnnotations`. -/
structure SerializedAnns where
  data : Buf
  typeToIds : AnnotationType → List String
  typeToOffset : AnnotationType → Nat
  typeToIdMaps : AnnotationType → List (String × Nat)

/-- First pass of `serializeAnnotations`: record each kind's starting offset,
accumulating `(geometryBytes + propertyBytes) * count` per kind and padding
each subtotal up to a 4-byte boundary. -/
def typeOffsetWalk (allAnns : AnnotationType → List Ann) (rank propBytes : Nat) :
    List AnnotationType → Nat → List (AnnotationType × Nat) × Nat
  | [], total => ([], total)
  | t :: rest, total =>
      let afterT := total + (handlerSerializedBytes t rank + propBytes) * (allAnns t).length
      let padded := afterT + (4 - afterT % 4) % 4
      let r := typeOffsetWalk allAnns rank propBytes rest padded
      ((t, total) :: r.1, r.2)

/-- Dispatch the geometry serializer of kind `t` on a record (records of a
different kind never occur in kind `t`'s bucket). -/
def handlerSerializeOn (t : AnnotationType) (b : Buf) (off : Nat) (isLE : Bool)
    (rank : Nat) (a : Ann) : Buf :=
  if a.geometry.kind = t then handlerSerialize a.geometry b off isLE rank else b

/-- Second pass of `serializeAnnotations` for one kind: write each record's
geometry bytes immediately followed by its property bytes, advancing the
cursor by the combined stride. -/
def writeTypeAnns (isLE : Bool) (rank geomBytes propBytes : Nat)
    (pser : Buf → Nat → Bool → List Int → Buf) (t : AnnotationType) :
    List Ann → Buf → Nat → Buf
  | [], b, _ => b
  | a :: rest, b, off =>
      let b1 := handlerSerializeOn t b off isLE rank a
      let b2 := pser b1 (off + geomBytes) isLE a.properties
      writeTypeAnns isLE rank geomBytes propBytes pser t rest b2 (off + geomBytes + propBytes)

/-- `serializeAnnotations(allAnnotations, propertySerializer)`. -/
def serializeAnnotations (allAnns : AnnotationType → List Ann)
    (ps : PropSerializer) (isLE : Bool) : SerializedAnns :=
  let offs := (typeOffsetWalk allAnns ps.rank ps.serializedBytes annotationTypes 0).1
  let typeToOffset := fun t => (List.lookup t offs).getD 0
  { data := annotationTypes.foldl
      (fun b t => writeTypeAnns isLE ps.rank (handlerSerializedBytes t ps.rank)
        ps.serializedBytes ps.serialize t (allAnns t) b (typeToOffset t)) zeroBuf,
    typeToIds := fun t => (allAnns t).map (fun a => a.id),
    typeToOffset := typeToOffset,
    typeToIdMaps := fun t => ((allAnns t).map (fun a => a.id)).enum.map
      (fun pr => (pr.2, pr.1)) }

/-- The picking resolution produced by `updateMouseState`:
`mouseState.pickedAnnotationId`, `mouseState.pickedOffset` (the part index),
the resolved geometry kind, and `mouseState.pickedAnnotationBufferOffset`. -/
structure PickResult where
  kind : AnnotationType
  pickedId : String
  partIndex : Nat
  bufferOffset : Nat
deriving DecidableEq, Repr

/-- The resolver loop of `updateMouseState`: walk the geometry kinds in the
fixed order, subtracting `ids.length * pickIdsPerInstance` per kind until the
kind containing the offset is found (the coordinate-transform work done
afterwards on the mouse position involves only external collaborators and is
not modelled). -/
def resolvePick (s : SerializedAnns) (pick : AnnotationType → Nat)
    (rank propBytes : Nat) : List AnnotationType → Nat → Option PickResult
  | [], _ => none
  | t :: rest, off =>
      if off < (s.typeToIds t).length * pick t then
        some { kind := t, pickedId := (s.typeToIds t).getD (off / pick t) noId,
               partIndex := off % pick t,
               bufferOffset := s.typeToOffset t
                 + (off / pick t) * (handlerSerializedBytes t rank + propBytes) }
      else resolvePick s pick rank propBytes rest (off - (s.typeToIds t).length * pick t)

/-- `updateMouseState(mouseState, _pickedValue, pickedOffset, data)` reduced
to its pick-resolution result. -/
def updateMouseState (s : SerializedAnns) (pick : AnnotationType → Nat)
    (rank propBytes : Nat) (pickedOffset : Nat) : Option PickResult :=
  resolvePick s pick rank propBytes annotationTypes pickedOffset

/-- Pick offsets consumed by the kinds of `l` during the forward draw
enumeration: each kind consumes `idCount * pickIdsPerInstance` offsets. -/
def forwardBase (allAnns : AnnotationType → List Ann) (pick : AnnotationType → Nat)
    (l : List AnnotationType) : Nat :=
  (l.map (fun t => (allAnns t).length * pick t)).sum

/-- The kinds drawn before `k` in the fixed order. -/
def kindPre : AnnotationType → List AnnotationType
  | .POINT => []
  | .LINE => [.POINT]
  | .AXIS_ALIGNED_BOUNDING_BOX => [.POINT, .LINE]
  | .ELLIPSOID => [.POINT, .LINE, .AXIS_ALIGNED_BOUNDING_BOX]

/-- The kinds drawn after `k` in the fixed order. -/
def kindSuf : AnnotationType → List AnnotationType
  | .POINT => [.LINE, .AXIS_ALIGNED_BOUNDING_BOX, .ELLIPSOID]
  | .LINE => [.AXIS_ALIGNED_BOUNDING_BOX, .ELLIPSOID]
  | .AXIS_ALIGNED_BOUNDING_BOX => [.ELLIPSOID]
  | .ELLIPSOID => []

/-- The flat pick offset assigned during the forward draw enumeration to part
`part` of instance `i` of kind `k`. -/
def forwardPickOffset (allAnns : AnnotationType → List Ann)
    (pick : AnnotationType → Nat) (k : AnnotationType) (i part : Nat) : Nat :=
  forwardBase allAnns pick (kindPre k) + i * pick k + part

lemma annotationTypes_decomp (k : AnnotationType) :
    annotationTypes = kindPre k ++ k :: kindSuf k := by
  cases k <;> rfl

lemma serializeAnnotations_typeToIds (allAnns : AnnotationType → List Ann)
    (ps : PropSerializer) (isLE : Bool) :
    (serializeAnnotations allAnns ps isLE).typeToIds
      = fun t => (allAnns t).map (fun a => a.id) := rfl

lemma resolvePick_cons (s : SerializedAnns) (pick : AnnotationType → Nat)
    (rank pb : Nat) (t : AnnotationType) (rest : List AnnotationType) (off : Nat) :
    resolvePick s pick rank pb (t :: rest) off
      = if off < (s.typeToIds t).length * pick t then
          some { kind := t, pickedId := (s.typeToIds t).getD (off / pick t) noId,
                 partIndex := off % pick t,
                 bufferOffset := s.typeToOffset t
                   + (off / pick t) * (handlerSerializedBytes t rank + pb) }
        else resolvePick s pick rank pb rest (off - (s.typeToIds t).length * pick t) := rfl

lemma resolvePick_skip (s : SerializedAnns) (pick : AnnotationType → Nat)
    (rank pb : Nat) (allAnns : AnnotationType → List Ann)
    (hlen : ∀ t, (s.typeToIds t).length = (allAnns t).length) :
    ∀ (pre rest : List AnnotationType) (off : Nat),
      resolvePick s pick rank pb (pre ++ rest) (forwardBase allAnns pick pre + off)
        = resolvePick s pick rank pb rest off := by
  intro pre
  induction pre with
  | nil => intro rest off; simp [forwardBase]
  | cons t pre' ih =>
      intro rest off
      have hbase : forwardBase allAnns pick (t :: pre')
          = (allAnns t).length * pick t + forwardBase allAnns pick pre' := by
        simp [forwardBase]
      rw [hbase]
      show resolvePick s pick rank pb (t :: (pre' ++ rest)) _ = _
      rw [resolvePick_cons, hlen t, if_neg (by omega)]
      have hsub : (allAnns t).length * pick t + forwardBase allAnns pick pre' + off
          - (allAnns t).length * pick t = forwardBase allAnns pick pre' + off := by
        omega
      rw [hsub, ih rest off]

lemma resolvePick_hit (s : SerializedAnns) (pick : AnnotationType → Nat)
    (rank pb : Nat) (t : AnnotationType) (rest : List AnnotationType) (i part : Nat)
    (hp : 0 < pick t) (hi : i < (s.typeToIds t).length) (hpart : part < pick t) :
    resolvePick s pick rank pb (t :: rest) (i * pick t + part)
      = some { kind := t, pickedId := (s.typeToIds t).getD i noId, partIndex := part,
               bufferOffset := s.typeToOffset t
                 + i * (handlerSerializedBytes t rank + pb) } := by
  have harr : i * pick t + part = part + pick t * i := by ring
  have hdiv : (i * pick t + part) / pick t = i := by
    rw [harr, Nat.add_mul_div_left part i hp, Nat.div_eq_of_lt hpart]
    omega
  have hmod : (i * pick t + part) % pick t = part := by
    rw [harr, Nat.add_mul_mod_self_left, Nat.mod_eq_of_lt hpart]
  have hlt : i * pick t + part < (s.typeToIds t).length * pick t := by
    have h1 : (i + 1) * pick t ≤ (s.typeToIds t).length * pick t :=
      Nat.mul_le_mul_right _ (by omega)
    have h2 : (i + 1) * pick t = i * pick t + pick t := by ring
    omega
  rw [resolvePick_cons, if_pos hlt, hdiv, hmod]

/-- C2.  Picking inverse law: for every serialized snapshot and every valid
flat pick offset produced by the forward draw enumeration (kind `k`, instance
`i`, part `part`), the resolver returns that same kind and the id of the
`i`-th drawn annotation of that kind, with part index `part` and byte
location `typeToOffset[kind] + i * (geometryBytes(rank) + propertyBytes)`. -/
theorem c2_picking_inverse_law :
    ∀ (allAnns : AnnotationType → List Ann) (ps : PropSerializer) (isLE : Bool)
      (pick : AnnotationType → Nat) (k : AnnotationType) (i part : Nat),
      (∀ t, 0 < pick t) → i < (allAnns k).length → part < pick k →
      updateMouseState (serializeAnnotations allAnns ps isLE) pick ps.rank
          ps.serializedBytes (forwardPickOffset allAnns pick k i part)
        = some { kind := k,
                 pickedId := ((allAnns k).map (fun a => a.id)).getD i noId,
                 partIndex := part,
                 bufferOffset := (serializeAnnotations allAnns ps isLE).typeToOffset k
                   + i * (handlerSerializedBytes k ps.rank + ps.serializedBytes) } := by
  intro allAnns ps isLE pick k i part hp hi hpart
  have hlen : ∀ t, ((serializeAnnotations allAnns ps isLE).typeToIds t).length
      = (allAnns t).length := by
    intro t
    rw [serializeAnnotations_typeToIds]
    exact List.length_map _ _
  unfold updateMouseState forwardPickOffset
  rw [annotationTypes_decomp k, Nat.add_assoc]
  rw [resolvePick_skip (serializeAnnotations allAnns ps isLE) pick ps.rank
    ps.serializedBytes allAnns hlen (kindPre k) (k :: kindSuf k) (i * pick k + part)]
  rw [resolvePick_hit (serializeAnnotations allAnns ps isLE) pick ps.rank
    ps.serializedBytes k (kindSuf k) i part (hp k) (by rw [hlen k]; exact hi) hpart]
  rw [serializeAnnotations_typeToIds]

/-- A rank-1 point record used by the C2 witness. -/
def wAnnP : Ann :=
  { id := "pt1", description := none, relatedSegments := none, properties := [],
    geometry := .point [0] }

/-- A rank-1 line record used by the C2 witness. -/
def wAnnL : Ann :=
  { id := "ln1", description := none, relatedSegments := none, properties := [],
    geometry := .line [0] [0] }

/-- One point and one line, bucketed by kind, for the C2 witness. -/
def wAll : AnnotationType → List Ann := fun t =>
  match t with
  | .POINT => [wAnnP]
  | .LINE => [wAnnL]
  | _ => []

/-- A trivial property serializer (empty schema) for the C2 witness. -/
def wps : PropSerializer :=
  { rank := 1, serializedBytes := 0, serialize := fun b _ _ _ => b }

/-- Three pick ids per instance for every kind, for the C2 witness. -/
def wpick : AnnotationType → Nat := fun _ => 3

/-- Witness for C2: flat offset 4 falls in the LINE block (after the point's
3 offsets), instance 0, part 1, resolving to id `ln1` at byte offset 4. -/
theorem c2_picking_inverse_law_witness :
    updateMouseState (serializeAnnotations wAll wps true) wpick 1 0 4
      = some { kind := .LINE, pickedId := "ln1", partIndex := 1, bufferOffset := 4 } :=
  c2_picking_inverse_law wAll wps true wpick .LINE 0 1
    (by intro t; cases t <;> decide) (by decide) (by decide)

/-! ## The annotation store (`AnnotationSource`) -/

/-- `AnnotationSchema`: rank, relationship names and property specs. -/
structure Schema where
  rank : Nat
  relationships : List String
  properties : List PropSpec
deriving DecidableEq, Repr

/-- State of an `AnnotationSource`: the insertion-ordered keyed collection,
the pending id set, and the live reference registrations (`references` maps
an id to the shared reference's `value`; `none` is the deleted sentinel
`null`). -/
structure SourceState where
  schema : Schema
  annotationMap : List (String × Ann)
  pending : List String
  references : List (String × Option Ann)
deriving DecidableEq, Repr

/-- `Map.set`: replace in place if the key exists, else append. -/
def mapSet (m : List (String × Ann)) (k : String) (v : Ann) : List (String × Ann) :=
  match m with
  | [] => [(k, v)]
  | e :: rest => if e.1 = k then (k, v) :: rest else e :: mapSet rest k v

/-- `Map.delete`. -/
def mapDelete (m : List (String × Ann)) (k : String) : List (String × Ann) :=
  m.filter (fun e => e.1 != k)

/-- `Set.add`. -/
def setAdd (l : List String) (x : String) : List String :=
  if l.contains x then l else l ++ [x]

/-- `Set.delete`. -/
def setDelete (l : List String) (x : String) : List String :=
  l.filter (fun y => y != x)

/-- Assign a new `value` to the shared reference registered for `id`. -/
def setRefValue (refs : List (String × Option Ann)) (id : String) (v : Option Ann) :
    List (String × Option Ann) :=
  refs.map (fun e => if e.1 = id then (id, v) else e)

/-- Notifications dispatched by store operations, in dispatch order:
the store's `changed`/`childAdded`/`childUpdated`/`childDeleted` signals and a
reference's own `changed` signal. -/
inductive SEvent
  | changed
  | childAdded (a : Ann)
  | childUpdated (a : Ann)
  | childDeleted (id : String)
  | refChanged (id : String)
deriving DecidableEq, Repr

/-- `getReference(id)`: return the existing shared reference, or register a
fresh one whose value is the current record or the deleted sentinel. -/
def getReference (s : SourceState) (id : String) : String × SourceState :=
  match s.references.lookup id with
  | some _ => (id, s)
  | none => (id, { s with references := s.references ++ [(id, s.annotationMap.lookup id)] })

/-- Insertion tail of `add`: install the record, dispatch `changed` and
`childAdded`, mark pending when `commit` is false, and return a reference. -/
def insertGo (s : SourceState) (a : Ann) (commitFlag : Bool) :
    SourceState × List SEvent × String :=
  let s1 := { s with annotationMap := mapSet s.annotationMap a.id a }
  let s2 := if commitFlag then s1 else { s1 with pending := setAdd s1.pending a.id }
  ((getReference s2 a.id).2, [SEvent.changed, SEvent.childAdded a], (getReference s2 a.id).1)

/-- `add(annotation, commit)`: generate an id (from the supplied generator
value, standing for `makeAnnotationId()`) when none is given, throw when the
given id already exists, otherwise insert. -/
def addAnn (s : SourceState) (a : Ann) (commitFlag : Bool) (freshId : String) :
    Except String (SourceState × List SEvent × String) :=
  if a.id = emptyStr then
    .ok (insertGo s { a with id := freshId } commitFlag)
  else if (s.annotationMap.lookup a.id).isSome then
    .error errIdExists
  else
    .ok (insertGo s a commitFlag)

/-- `commit(reference)`: drop the reference's id from the pending set. -/
def commitAnn (s : SourceState) (refId : String) : SourceState × List SEvent :=
  ({ s with pending := setDelete s.pending refId }, [])

/-- `update(reference, annotation)`: throw when the reference's value is the
deleted sentinel; otherwise set the reference's value, replace the stored
record under the new record's id, and dispatch the reference's `changed`,
the store's `changed` and `childUpdated`. -/
def updateAnn (s : SourceState) (refId : String) (a : Ann) :
    Except String (SourceState × List SEvent) :=
  if s.references.lookup refId = some none then
    .error errAlreadyDeleted
  else
    .ok ({ s with references := setRefValue s.references refId (some a),
                  annotationMap := mapSet s.annotationMap a.id a },
         [SEvent.refChanged refId, SEvent.changed, SEvent.childUpdated a])

/-- `delete(reference)`: return silently when the reference's value is the
deleted sentinel; otherwise null the reference, remove the record, clear the
pending status, and dispatch the reference's `changed`, the store's `changed`
and `childDeleted`. -/
def deleteAnn (s : SourceState) (refId : String) : SourceState × List SEvent :=
  if s.references.lookup refId = some none then
    (s, [])
  else
    ({ s with references := setRefValue s.references refId none,
              annotationMap := mapDelete s.annotationMap refId,
              pending := setDelete s.pending refId },
     [SEvent.refChanged refId, SEvent.changed, SEvent.childDeleted refId])

/-- The JSON object emitted for one annotation by `annotationToJson`:
lowercase type tag, id, `description`/`segments`/`props` present only under
the source's conditions, and the geometric payload. -/
structure AnnJsonOut where
  typeTag : String
  id : String
  description : Option String
  segments : Option (List (List String))
  props : Option (List Int)
  geometry : Geom
deriving DecidableEq, Repr

/-- Lowercase tag of a geometry kind. -/
def typeTagOf (t : AnnotationType) : String :=
  match t with
  | .POINT => "point"
  | .LINE => "line"
  | .AXIS_ALIGNED_BOUNDING_BOX => "axis_aligned_bounding_box"
  | .ELLIPSOID => "ellipsoid"

/-- `annotationToJson(annotation, schema)`. -/
def annToJson (schema : Schema) (a : Ann) : AnnJsonOut :=
  { typeTag := typeTagOf a.geometry.kind,
    id := a.id,
    description := match a.description with
      | some (some d) => if d = emptyStr then none else some d
      | _ => none,
    segments := match a.relatedSegments with
      | some segs =>
          if segs.any (fun l => !l.isEmpty) then
            some (segs.map (fun l => l.map (fun n => toString n)))
          else none
      | none => none,
    props := if schema.properties.length ≠ 0 then some a.properties else none,
    geometry := a.geometry }

/-- `toJSON()`: the committed (non-pending) records, in collection order. -/
def toJSON (s : SourceState) : List AnnJsonOut :=
  (s.annotationMap.filter (fun e => !(s.pending.contains e.2.id))).map
    (fun e => annToJson s.schema e.2)

lemma lookup_mapSet_self (m : List (String × Ann)) (k : String) (v : Ann) :
    (mapSet m k v).lookup k = some v := by
  induction m with
  | nil => simp [mapSet, List.lookup]
  | cons e rest ih =>
      obtain ⟨a, b⟩ := e
      unfold mapSet
      by_cases he : a = k
      · rw [if_pos he]
        simp [List.lookup]
      · rw [if_neg he]
        have hne : (k == a) = false := beq_eq_false_iff_ne.mpr (fun h => he h.symm)
        simp [List.lookup, hne, ih]

lemma mapSet_of_lookup_none (m : List (String × Ann)) (k : String) (v : Ann)
    (h : m.lookup k = none) : mapSet m k v = m ++ [(k, v)] := by
  induction m with
  | nil => rfl
  | cons e rest ih =>
      obtain ⟨a, b⟩ := e
      unfold mapSet
      by_cases he : a = k
      · exfalso
        have : (k == a) = true := beq_iff_eq.mpr he.symm
        simp [List.lookup, this] at h
      · rw [if_neg he]
        have hne : (k == a) = false := beq_eq_false_iff_ne.mpr (fun hx => he hx.symm)
        simp only [List.lookup, hne] at h
        rw [ih h]
        rfl

lemma lookup_none_forall (m : List (String × Ann)) (k : String)
    (h : m.lookup k = none) : ∀ e ∈ m, e.1 ≠ k := by
  induction m with
  | nil => intro e he; simp at he
  | cons e rest ih =>
      obtain ⟨a, b⟩ := e
      intro x hx
      rcases List.mem_cons.mp hx with rfl | hx'
      · intro hak
        have : (k == a) = true := beq_iff_eq.mpr hak.symm
        simp [List.lookup, this] at h
      · by_cases hak : (k == a) = true
        · simp [List.lookup, hak] at h
        · have hne : (k == a) = false := by
            cases hbe : (k == a) with
            | true => exact absurd hbe hak
            | false => rfl
          simp only [List.lookup, hne] at h
          exact ih h x hx'

lemma lookup_mapDelete_self (m : List (String × Ann)) (k : String) :
    (mapDelete m k).lookup k = none := by
  induction m with
  | nil => rfl
  | cons e rest ih =>
      obtain ⟨a, b⟩ := e
      unfold mapDelete at ih ⊢
      by_cases he : a = k
      · simp [List.filter, he, ih]
      · have h1 : (a != k) = true := by simp [he]
        have h2 : (k == a) = false := beq_eq_false_iff_ne.mpr (fun hx => he hx.symm)
        simp only [List.filter, h1]
        simp [List.lookup, h2, ih]

lemma lookup_mapDelete_other (m : List (String × Ann)) (k j : String) (hj : j ≠ k) :
    (mapDelete m k).lookup j = m.lookup j := by
  induction m with
  | nil => rfl
  | cons e rest ih =>
      obtain ⟨a, b⟩ := e
      unfold mapDelete at ih ⊢
      by_cases he : a = k
      · have h1 : (a != k) = false := by simp [he]
        have h2 : (j == a) = false := beq_eq_false_iff_ne.mpr (by rw [he]; exact hj)
        simp only [List.filter, h1]
        simp [List.lookup, h2, ih]
      · have h1 : (a != k) = true := by simp [he]
        simp only [List.filter, h1]
        by_cases hja : (j == a) = true
        · simp [List.lookup, hja]
        · have h3 : (j == a) = false := by
            cases hbe : (j == a) with
            | true => exact absurd hbe hja
            | false => rfl
          simp [List.lookup, h3, ih]

lemma lookup_setRefValue_self (refs : List (String × Option Ann)) (id : String)
    (v w : Option Ann) (h : refs.lookup id = some w) :
    (setRefValue refs id v).lookup id = some v := by
  induction refs with
  | nil => simp [List.lookup] at h
  | cons e rest ih =>
      obtain ⟨a, b⟩ := e
      unfold setRefValue at ih ⊢
      by_cases he : a = id
      · simp only [List.map, if_pos he]
        simp [List.lookup]
      · simp only [List.map, if_neg he]
        have h2 : (id == a) = false := beq_eq_false_iff_ne.mpr (fun hx => he hx.symm)
        simp only [List.lookup, h2] at h
        simp [List.lookup, h2, ih h]

lemma setAdd_contains_self (l : List String) (x : String) :
    (setAdd l x).contains x = true := by
  unfold setAdd
  by_cases h : l.contains x = true
  · rw [if_pos h]
    exact h
  · have h' : l.contains x = false := by
      cases hb : l.contains x with
      | true => exact absurd hb h
      | false => rfl
    rw [if_neg (by rw [h']; exact Bool.false_ne_true)]
    simp

lemma setDelete_not_mem (l : List String) (x : String) : x ∉ setDelete l x := by
  intro hx
  unfold setDelete at hx
  have := List.mem_filter.mp hx
  simp at this

lemma setDelete_mem_other (l : List String) (x j : String) (hj : j ≠ x) :
    j ∈ setDelete l x ↔ j ∈ l := by
  unfold setDelete
  rw [List.mem_filter]
  simp [hj]

lemma getReference_fst (s : SourceState) (id : String) : (getReference s id).1 = id := by
  unfold getReference
  cases s.references.lookup id <;> rfl

lemma getReference_map (s : SourceState) (id : String) :
    (getReference s id).2.annotationMap = s.annotationMap := by
  unfold getReference
  cases s.references.lookup id <;> rfl

lemma getReference_pending (s : SourceState) (id : String) :
    (getReference s id).2.pending = s.pending := by
  unfold getReference
  cases s.references.lookup id <;> rfl

lemma getReference_schema (s : SourceState) (id : String) :
    (getReference s id).2.schema = s.schema := by
  unfold getReference
  cases s.references.lookup id <;> rfl

lemma insertGo_map (s : SourceState) (a : Ann) (cf : Bool) :
    (insertGo s a cf).1.annotationMap = mapSet s.annotationMap a.id a := by
  cases cf <;> simp [insertGo, getReference_map]

lemma insertGo_pending_false (s : SourceState) (a : Ann) :
    (insertGo s a false).1.pending = setAdd s.pending a.id := by
  simp [insertGo, getReference_pending]

lemma insertGo_schema (s : SourceState) (a : Ann) (cf : Bool) :
    (insertGo s a cf).1.schema = s.schema := by
  cases cf <;> simp [insertGo, getReference_schema]

lemma insertGo_ref (s : SourceState) (a : Ann) (cf : Bool) :
    (insertGo s a cf).2.2 = a.id := by
  cases cf <;> simp [insertGo, getReference_fst]

lemma contains_false_of_not_mem (l : List String) (x : String) (h : x ∉ l) :
    l.contains x = false := by
  cases hb : l.contains x with
  | false => rfl
  | true => exact absurd (List.mem_of_elem_eq_true hb) h

/-- C5.  Pending visibility: an annotation added with `commit = false` is
absent from `toJSON()` output; after `commit(reference)` it is present in the
next `toJSON()` output. -/
theorem c5_pending_visibility (s : SourceState) (a : Ann) (g : String)
    (s1 : SourceState) (ev : List SEvent) (r : String)
    (hwf : ∀ e ∈ s.annotationMap, e.2.id = e.1)
    (hid : a.id ≠ emptyStr)
    (hlk : s.annotationMap.lookup a.id = none)
    (hadd : addAnn s a false g = Except.ok (s1, ev, r)) :
    (∀ e ∈ toJSON s1, e.id ≠ a.id) ∧
      (∃ e ∈ toJSON (commitAnn s1 r).1, e.id = a.id) := by
  have hins : addAnn s a false g = Except.ok (insertGo s a false) := by
    unfold addAnn
    rw [if_neg hid, hlk]
    simp
  rw [hins] at hadd
  have htriple : insertGo s a false = (s1, ev, r) := Except.ok.inj hadd
  have hs1 : s1 = (insertGo s a false).1 := by rw [htriple]
  have hr : r = a.id := by rw [← insertGo_ref s a false, htriple]
  have hmap : s1.annotationMap = s.annotationMap ++ [(a.id, a)] := by
    rw [hs1, insertGo_map, mapSet_of_lookup_none _ _ _ hlk]
  have hpend : s1.pending = setAdd s.pending a.id := by
    rw [hs1, insertGo_pending_false]
  constructor
  · intro e he
    unfold toJSON at he
    rw [List.mem_map] at he
    obtain ⟨entry, hent, rfl⟩ := he
    rw [List.mem_filter] at hent
    obtain ⟨hmem, hcond⟩ := hent
    show (annToJson s1.schema entry.2).id ≠ a.id
    have hidfield : (annToJson s1.schema entry.2).id = entry.2.id := rfl
    rw [hidfield]
    rw [hmap] at hmem
    rcases List.mem_append.mp hmem with hleft | hright
    · rw [hwf entry hleft]
      exact lookup_none_forall s.annotationMap a.id hlk entry hleft
    · have hentry : entry = (a.id, a) := by simpa using hright
      intro _
      rw [hentry] at hcond
      rw [hpend] at hcond
      rw [setAdd_contains_self] at hcond
      simp at hcond
  · rw [hr]
    refine ⟨annToJson (commitAnn s1 a.id).1.schema a, ?_, rfl⟩
    unfold toJSON
    rw [List.mem_map]
    refine ⟨(a.id, a), ?_, rfl⟩
    rw [List.mem_filter]
    constructor
    · show (a.id, a) ∈ (commitAnn s1 a.id).1.annotationMap
      have : (commitAnn s1 a.id).1.annotationMap = s1.annotationMap := rfl
      rw [this, hmap]
      exact List.mem_append_right _ (by simp)
    · show (!(commitAnn s1 a.id).1.pending.contains a.id) = true
      have hpend' : (commitAnn s1 a.id).1.pending = setDelete s1.pending a.id := rfl
      rw [hpend', contains_false_of_not_mem _ _ (setDelete_not_mem s1.pending a.id)]
      rfl

/-- Witness state for C5/C9/C10: schema of rank 1 with no relationships or
properties. -/
def sc0 : Schema := { rank := 1, relationships := [], properties := [] }

/-- The empty store over `sc0`. -/
def st0 : SourceState := { schema := sc0, annotationMap := [], pending := [], references := [] }

/-- A committed-later point record used by the C5 witness. -/
def aC5 : Ann :=
  { id := "x", description := none, relatedSegments := none, properties := [],
    geometry := .point [0] }

/-- The store state right after `add(aC5, commit := false)` on `st0`. -/
def s1C5 : SourceState :=
  { schema := sc0, annotationMap := [("x", aC5)], pending := ["x"],
    references := [("x", some aC5)] }

/-- Witness for C5 on a concrete one-record store. -/
theorem c5_pending_visibility_witness :
    (∀ e ∈ toJSON s1C5, e.id ≠ aC5.id) ∧
      (∃ e ∈ toJSON (commitAnn s1C5 "x").1, e.id = aC5.id) :=
  c5_pending_visibility st0 aC5 "g1" s1C5 [SEvent.changed, SEvent.childAdded aC5] "x"
    (by intro e he; simp [st0] at he) (by decide) (by decide) rfl

/-- C9.  `add` id semantics: with no id supplied the generated id (the
embedding's stand-in for `makeAnnotationId()`) is assigned to the record
before insertion; with an id already present in the store, `add` throws
`errIdExists` and returns no new state. -/
theorem c9_add_id_semantics (s : SourceState) (a : Ann) (c : Bool) (g : String) :
    (a.id = emptyStr →
      (addAnn s a c g).isOk = true ∧
      ∀ s1 ev r, addAnn s a c g = Except.ok (s1, ev, r) →
        s1.annotationMap.lookup g = some { a with id := g }) ∧
    (a.id ≠ emptyStr → (s.annotationMap.lookup a.id).isSome = true →
      addAnn s a c g = Except.error errIdExists) := by
  constructor
  · intro hid
    have hok : addAnn s a c g = Except.ok (insertGo s { a with id := g } c) := by
      unfold addAnn
      rw [if_pos hid]
    constructor
    · rw [hok]; rfl
    · intro s1 ev r hadd
      rw [hok] at hadd
      have htriple := Except.ok.inj hadd
      have hs1 : s1 = (insertGo s { a with id := g } c).1 := by rw [htriple]
      rw [hs1, insertGo_map]
      have hgid : ({ a with id := g } : Ann).id = g := rfl
      rw [hgid]
      exact lookup_mapSet_self s.annotationMap g { a with id := g }
  · intro hid hsome
    unfold addAnn
    rw [if_neg hid, if_pos hsome]

/-- A record with a fixed id for the C9 witness. -/
def aC9 : Ann :=
  { id := "dup", description := none, relatedSegments := none, properties := [],
    geometry := .point [0] }

/-- A record with no id for the C9 witness. -/
def aC9b : Ann :=
  { id := "", description := none, relatedSegments := none, properties := [],
    geometry := .point [0] }

/-- A one-record store already containing `dup`, for the C9 witness. -/
def stC9 : SourceState :=
  { schema := sc0, annotationMap := [("dup", aC9)], pending := [], references := [] }

/-- Witness for C9: on `stC9`, adding the id-less record installs it under
the generated id, and re-adding id `dup` throws. -/
theorem c9_add_id_semantics_witness :
    ((addAnn stC9 aC9b true "gen1").isOk = true ∧
      ∀ s1 ev r, addAnn stC9 aC9b true "gen1" = Except.ok (s1, ev, r) →
        s1.annotationMap.lookup "gen1" = some { aC9b with id := "gen1" }) ∧
    addAnn stC9 aC9 true "gen1" = Except.error errIdExists :=
  ⟨(c9_add_id_semantics stC9 aC9b true "gen1").1 (by decide),
   (c9_add_id_semantics stC9 aC9 true "gen1").2 (by decide) (by decide)⟩

lemma setDelete_idem (l : List String) (x : String) :
    setDelete (setDelete l x) x = setDelete l x := by
  unfold setDelete
  rw [List.filter_filter]
  congr 1
  funext y
  cases hb : (y != x) <;> simp [hb]

/-- C10.  Frame property of `commit`: it only removes the reference's id from
the pending set — annotation map, references, schema and the pending status
of every other id are untouched, no notification is dispatched, and the
operation is idempotent. -/
theorem c10_commit_frame (s : SourceState) (refId : String) :
    (commitAnn s refId).1.annotationMap = s.annotationMap ∧
    (commitAnn s refId).1.references = s.references ∧
    (commitAnn s refId).1.schema = s.schema ∧
    (commitAnn s refId).2 = [] ∧
    (∀ j, j ≠ refId → (j ∈ (commitAnn s refId).1.pending ↔ j ∈ s.pending)) ∧
    commitAnn (commitAnn s refId).1 refId = commitAnn s refId := by
  refine ⟨rfl, rfl, rfl, rfl, ?_, ?_⟩
  · intro j hj
    exact setDelete_mem_other s.pending refId j hj
  · unfold commitAnn
    simp [setDelete_idem]

/-- Witness for C10 on a concrete store with two pending ids. -/
def stC10 : SourceState :=
  { schema := sc0, annotationMap := [], pending := ["p1", "p2"], references := [] }

/-- Witness for C10: committing `p1` on `stC10`. -/
theorem c10_commit_frame_witness :
    (commitAnn stC10 "p1").1.annotationMap = stC10.annotationMap ∧
    (commitAnn stC10 "p1").1.references = stC10.references ∧
    (commitAnn stC10 "p1").1.schema = stC10.schema ∧
    (commitAnn stC10 "p1").2 = [] ∧
    ("p2" ∈ (commitAnn stC10 "p1").1.pending ↔ "p2" ∈ stC10.pending) ∧
    commitAnn (commitAnn stC10 "p1").1 "p1" = commitAnn stC10 "p1" :=
  ⟨(c10_commit_frame stC10 "p1").1,
   (c10_commit_frame stC10 "p1").2.1,
   (c10_commit_frame stC10 "p1").2.2.1,
   (c10_commit_frame stC10 "p1").2.2.2.1,
   (c10_commit_frame stC10 "p1").2.2.2.2.1 "p2" (by decide),
   (c10_commit_frame stC10 "p1").2.2.2.2.2⟩

/-- Store with one live reference to `x` whose value is the deleted sentinel
(the record never existed), for the C7 counterexample. -/
def stC7 : SourceState :=
  { schema := sc0, annotationMap := [], pending := [], references := [("x", none)] }

/-- C7 counterexample: `delete` on a reference whose value is the deleted
sentinel returns silently with no state change and no notification — the
function has no error outcome on this path, so no exception is surfaced,
refuting the claim that this is a fatal error. -/
theorem c7_delete_deleted_silent_counterexample :
    deleteAnn stC7 "x" = (stC7, []) := rfl

/-- C7 (amended).  `delete` on an already-deleted reference is a silent
no-op; on a non-deleted reference it removes the record, clears pending
status, sets the reference's value to the deleted sentinel and dispatches
the reference's `changed`, the store's `changed` and `childDeleted`. -/
theorem c7_delete_semantics (s : SourceState) (refId : String) :
    (s.references.lookup refId = some none → deleteAnn s refId = (s, [])) ∧
    (∀ a0, s.references.lookup refId = some (some a0) →
      (deleteAnn s refId).1.annotationMap.lookup refId = none ∧
      (∀ j, j ≠ refId →
        (deleteAnn s refId).1.annotationMap.lookup j = s.annotationMap.lookup j) ∧
      (deleteAnn s refId).1.references.lookup refId = some none ∧
      refId ∉ (deleteAnn s refId).1.pending ∧
      (deleteAnn s refId).2
        = [SEvent.refChanged refId, SEvent.changed, SEvent.childDeleted refId]) := by
  constructor
  · intro h
    unfold deleteAnn
    rw [if_pos h]
  · intro a0 h
    have hne : ¬(s.references.lookup refId = some none) := by
      rw [h]; simp
    have hd : deleteAnn s refId
        = ({ s with references := setRefValue s.references refId none,
                    annotationMap := mapDelete s.annotationMap refId,
                    pending := setDelete s.pending refId },
           [SEvent.refChanged refId, SEvent.changed, SEvent.childDeleted refId]) := by
      unfold deleteAnn
      rw [if_neg hne]
    rw [hd]
    exact ⟨lookup_mapDelete_self s.annotationMap refId,
      fun j hj => lookup_mapDelete_other s.annotationMap refId j hj,
      lookup_setRefValue_self s.references refId none (some a0) h,
      setDelete_not_mem s.pending refId, rfl⟩

/-- A live record used by the C7 witness. -/
def aC7 : Ann :=
  { id := "y", description := none, relatedSegments := none, properties := [],
    geometry := .point [7] }

/-- Store holding `aC7` with a live reference to it, for the C7 witness. -/
def stC7b : SourceState :=
  { schema := sc0, annotationMap := [("y", aC7)], pending := ["y"],
    references := [("y", some aC7)] }

/-- Witness for the amended C7: both branches at concrete stores. -/
theorem c7_delete_semantics_witness :
    deleteAnn stC7 "x" = (stC7, []) ∧
    (deleteAnn stC7b "y").1.annotationMap.lookup "y" = none ∧
    (deleteAnn stC7b "y").1.annotationMap.lookup "z"
      = stC7b.annotationMap.lookup "z" ∧
    (deleteAnn stC7b "y").1.references.lookup "y" = some none ∧
    "y" ∉ (deleteAnn stC7b "y").1.pending ∧
    (deleteAnn stC7b "y").2
      = [SEvent.refChanged "y", SEvent.changed, SEvent.childDeleted "y"] :=
  ⟨(c7_delete_semantics stC7 "x").1 rfl,
   ((c7_delete_semantics stC7b "y").2 aC7 rfl).1,
   ((c7_delete_semantics stC7b "y").2 aC7 rfl).2.1 "z" (by decide),
   ((c7_delete_semantics stC7b "y").2 aC7 rfl).2.2.1,
   ((c7_delete_semantics stC7b "y").2 aC7 rfl).2.2.2.1,
   ((c7_delete_semantics stC7b "y").2 aC7 rfl).2.2.2.2⟩

/-- The record added in the C8 counterexample. -/
def aC8 : Ann :=
  { id := "a", description := none, relatedSegments := none, properties := [],
    geometry := .point [0] }

/-- Store with a live reference to `a` (value: deleted sentinel, the record
does not exist yet), for the C8 counterexample. -/
def stC8 : SourceState :=
  { schema := sc0, annotationMap := [], pending := [], references := [("a", none)] }

/-- The state right after `add(aC8)` on `stC8`: the record is installed but
the pre-existing reference's value is still the deleted sentinel. -/
def s1C8 : SourceState :=
  { schema := sc0, annotationMap := [("a", aC8)], pending := [],
    references := [("a", none)] }

/-- C8 counterexample: adding a record for an id with a live reference
neither dispatches that reference's `changed` (the event list is exactly
`changed, childAdded`, with no `refChanged`) nor refreshes its value (it
remains the deleted sentinel instead of the new record). -/
theorem c8_add_no_ref_notify_counterexample :
    addAnn stC8 aC8 true "g8"
        = Except.ok (s1C8, [SEvent.changed, SEvent.childAdded aC8], "a") ∧
      s1C8.references.lookup "a" = some none :=
  ⟨rfl, rfl⟩

/-- C8 (amended).  For a live, non-deleted reference, `update` and `delete`
dispatch that reference's `changed` signal and leave its value reflecting
the new state (the new record after `update`, the deleted sentinel after
`delete`); `add` does neither for a pre-existing reference. -/
theorem c8_ref_changed_on_update_delete (s : SourceState) (refId : String)
    (v0 a : Ann) (h : s.references.lookup refId = some (some v0)) :
    (∀ s2 ev, updateAnn s refId a = Except.ok (s2, ev) →
      SEvent.refChanged refId ∈ ev ∧ s2.references.lookup refId = some (some a)) ∧
    (SEvent.refChanged refId ∈ (deleteAnn s refId).2 ∧
      (deleteAnn s refId).1.references.lookup refId = some none) := by
  have hne : ¬(s.references.lookup refId = some none) := by
    rw [h]; simp
  constructor
  · intro s2 ev hupd
    have hok : updateAnn s refId a = Except.ok ({ s with references := setRefValue s.references refId (some a), annotationMap := mapSet s.annotationMap a.id a }, [SEvent.refChanged refId, SEvent.changed, SEvent.childUpdated a]) := by
      unfold updateAnn
      rw [if_neg hne]
    rw [hok] at hupd
    have hpair := Prod.mk.inj (Except.ok.inj hupd)
    constructor
    · rw [← hpair.2]
      exact List.mem_cons_self _ _
    · rw [← hpair.1]
      exact lookup_setRefValue_self s.references refId (some a) (some v0) h
  · have hd : deleteAnn s refId
        = ({ s with references := setRefValue s.references refId none,
                    annotationMap := mapDelete s.annotationMap refId,
                    pending := setDelete s.pending refId },
           [SEvent.refChanged refId, SEvent.changed, SEvent.childDeleted refId]) := by
      unfold deleteAnn
      rw [if_neg hne]
    rw [hd]
    exact ⟨List.mem_cons_self _ _,
      lookup_setRefValue_self s.references refId none (some v0) h⟩

/-- The updated record used by the C8 witness. -/
def aC8v : Ann :=
  { id := "u", description := none, relatedSegments := none, properties := [],
    geometry := .point [5] }

/-- The original record used by the C8 witness. -/
def aC8u : Ann :=
  { id := "u", description := none, relatedSegments := none, properties := [],
    geometry := .point [1] }

/-- Store holding `aC8u` with a live reference, for the C8 witness. -/
def stC8b : SourceState :=
  { schema := sc0, annotationMap := [("u", aC8u)], pending := [],
    references := [("u", some aC8u)] }

/-- The state after `update` on `stC8b`, used by the C8 witness. -/
def s2C8 : SourceState :=
  { schema := sc0, annotationMap := [("u", aC8v)], pending := [],
    references := [("u", some aC8v)] }

/-- Witness for the amended C8 at a concrete store. -/
theorem c8_ref_changed_witness :
    (SEvent.refChanged "u"
        ∈ [SEvent.refChanged "u", SEvent.changed, SEvent.childUpdated aC8v] ∧
      s2C8.references.lookup "u" = some (some aC8v)) ∧
    (SEvent.refChanged "u" ∈ (deleteAnn stC8b "u").2 ∧
      (deleteAnn stC8b "u").1.references.lookup "u" = some none) :=
  ⟨(c8_ref_changed_on_update_delete stC8b "u" aC8u aC8v rfl).1 s2C8
      [SEvent.refChanged "u", SEvent.changed, SEvent.childUpdated aC8v] rfl,
   (c8_ref_changed_on_update_delete stC8b "u" aC8u aC8v rfl).2⟩

/-! ## `LocalAnnotationSource.ensureUpdated` (rank migration) -/

/-- The slice of a `CoordinateSpaceTransform` that `ensureUpdated` reads:
`sourceRank` and the input space's per-dimension identity list (`ids` may be
longer than `sourceRank`). -/
structure SpaceTransform where
  sourceRank : Nat
  ids : List Nat
deriving DecidableEq, Repr

/-- The `newToOldDims` array: for each new dimension, the index of the old
dimension with the same identity (`-1` when absent or at/beyond the old
source rank). -/
def computeNewToOld (old new : SpaceTransform) : List Int :=
  (List.range new.sourceRank).map (fun newDim =>
    match old.ids.indexOf? (new.ids.getD newDim 0) with
    | some oldDim => if (oldDim : Int) ≥ (old.sourceRank : Int) then -1 else (oldDim : Int)
    | none => -1)

/-- The `mapVector` closure of `ensureUpdated`, exactly as in the source:
`newRadii[i] = (oldDim === -1) ? 0 : radii[i]` — note that when a matching
old dimension exists the component is copied from index `i` of the old
vector, not from index `oldDim` (an out-of-range `radii[i]` reads as JS
`undefined`, stored as NaN). -/
def mapVec (newToOld : List Int) (sourceRank : Nat) (radii : List Nat) : List Nat :=
  (List.range sourceRank).map (fun i =>
    if newToOld.getD i (-1) = -1 then 0
    else match radii.get? i with
         | some v => v
         | none => nanF32)

/-- Re-project one record's geometric vectors through `mapVector`. -/
def migrateAnn (newToOld : List Int) (sourceRank : Nat) (a : Ann) : Ann :=
  { a with geometry := match a.geometry with
      | .point p => .point (mapVec newToOld sourceRank p)
      | .line vA vB => .line (mapVec newToOld sourceRank vA) (mapVec newToOld sourceRank vB)
      | .box vA vB => .box (mapVec newToOld sourceRank vA) (mapVec newToOld sourceRank vB)
      | .ellipsoid c r =>
          .ellipsoid (mapVec newToOld sourceRank c) (mapVec newToOld sourceRank r) }

/-- `LocalAnnotationSource.ensureUpdated` when the watched transform value
has changed from `old` to `new` (the short-circuit on an identical transform
object is subsumed by the id-prefix equality check): if the rank and the
dimension-identity prefix are unchanged, do nothing; otherwise re-project
every stored record, set the source's rank, and dispatch `changed`. -/
def localEnsureUpdated (s : SourceState) (old new : SpaceTransform) :
    SourceState × List SEvent :=
  if old.sourceRank = new.sourceRank ∧
      old.ids.take new.sourceRank = new.ids.take new.sourceRank then
    (s, [])
  else
    let n2o := computeNewToOld old new
    let s2 := { s with annotationMap := s.annotationMap.map (fun e => (e.1, migrateAnn n2o new.sourceRank e.2)), schema := { s.schema with rank := new.sourceRank } }
    (s2, [SEvent.changed])

/-- The point record `[1, 2, 3]` of the C1 failing input (components kept as
plain naturals; `mapVector` moves them opaquely). -/
def aC1 : Ann :=
  { id := "p3", description := none, relatedSegments := none, properties := [],
    geometry := .point [1, 2, 3] }

/-- Rank-3 store holding `aC1`. -/
def stC1 : SourceState :=
  { schema := { rank := 3, relationships := ["segments"], properties := [] },
    annotationMap := [("p3", aC1)], pending := [], references := [] }

/-- Old transform: rank 3, dimension identities 10, 11, 12. -/
def c1old : SpaceTransform := { sourceRank := 3, ids := [10, 11, 12] }

/-- New transform: rank 2, dropping identity 11 and keeping 10 and 12. -/
def c1new : SpaceTransform := { sourceRank := 2, ids := [10, 12] }

/-- C1 (code evaluation at the failing input).  Under the identity mapping
that drops dimension 1 and keeps dimensions 0 and 2, the code migrates the
point `[1, 2, 3]` to `[1, 2]` — the component for the new dimension matched
to old dimension 2 is read from index 1 of the old vector (`radii[i]`), not
from the matched old dimension (`radii[oldDim]`), so the result differs from
the `[1, 3]` required by the claim and the spec. -/
theorem c1_rank_migration_code_eval :
    computeNewToOld c1old c1new = [0, 2] ∧
    (localEnsureUpdated stC1 c1old c1new).1.annotationMap.lookup "p3"
      = some { aC1 with geometry := .point [1, 2] } ∧
    ([1, 2] : List Nat) ≠ [1, 3] := ⟨rfl, by decide, by decide⟩

/-! ## `restoreAnnotation` / `AnnotationSource.restoreState` -/

def errBadType : String := "invalid annotation type"

def errMissingId : String := "expected string id"

def errBadU64 : String := "invalid uint64 string"

def errSegArity : String := "wrong number of relationship segment lists"

def errSegEntry : String := "expected segment list of the right shape"

def errPropsArity : String := "wrong number of property values"

def errMissingVec : String := "missing geometry vector"

def errVecLen : String := "wrong geometry vector length"

def errBadFloat : String := "expected finite float"

/-- A JSON value in a `segments` array: a bare decimal string (the flattened
single-relationship form) or a nested list of decimal strings. -/
inductive SegJson
  | str (s : String)
  | arr (l : List String)
deriving DecidableEq, Repr

/-- The persisted JSON object for one annotation, each field present or
absent; geometry components are float32 patterns. -/
structure AnnJsonIn where
  typeField : Option String
  id : Option String
  description : Option String
  segments : Option (List SegJson)
  props : Option (List Int)
  point : Option (List Nat)
  pointA : Option (List Nat)
  pointB : Option (List Nat)
  center : Option (List Nat)
  radii : Option (List Nat)
deriving DecidableEq, Repr

/-- Modelled from the spec: `verifyEnumString(x, AnnotationType)` accepts the
four lowercase type tags and throws otherwise (the helper lives in
`neuroglancer/util/json`, outside the provided sources). -/
def parseEnumTag (s : String) : Except String AnnotationType :=
  if s = "point" then .ok .POINT
  else if s = "line" then .ok .LINE
  else if s = "axis_aligned_bounding_box" then .ok .AXIS_ALIGNED_BOUNDING_BOX
  else if s = "ellipsoid" then .ok .ELLIPSOID
  else .error errBadType

/-- Modelled from the spec: `Uint64.parseString` parses a decimal string
into a 64-bit unsigned integer and throws on anything else. -/
def parseU64 (s : String) : Except String Nat :=
  match s.toNat? with
  | some n => if n < 2 ^ 64 then .ok n else .error errBadU64
  | none => .error errBadU64

/-- The flattened single-relationship branch: every entry must be a bare
string id. -/
def parseFlatSegs : List SegJson → Except String (List Nat)
  | [] => .ok []
  | .str s :: rest => do
      let n ← parseU64 s
      let ns ← parseFlatSegs rest
      .ok (n :: ns)
  | .arr _ :: _ => .error errSegEntry

/-- The nested branch: every entry must itself be a list of string ids. -/
def parseSegLists : List SegJson → Except String (List (List Nat))
  | [] => .ok []
  | .arr l :: rest => do
      let ns ← l.mapM parseU64
      let rest2 ← parseSegLists rest
      .ok (ns :: rest2)
  | .str _ :: _ => .error errSegEntry

/-- The `segments` parsing of `restoreAnnotation`: missing or empty gives one
empty list per relationship; a single relationship with a non-array first
entry parses the flattened form; otherwise the arity must equal the number of
relationships. -/
def parseSegments (rel : List String) (f : Option (List SegJson)) :
    Except String (List (List Nat)) :=
  match f with
  | none => .ok (rel.map (fun _ => []))
  | some a =>
      match a with
      | [] => .ok (rel.map (fun _ => []))
      | .str s0 :: rest =>
          if rel.length = 1 then do
            let l ← parseFlatSegs (.str s0 :: rest)
            .ok [l]
          else if (SegJson.str s0 :: rest).length = rel.length then
            parseSegLists (.str s0 :: rest)
          else .error errSegArity
      | .arr l0 :: rest =>
          if (SegJson.arr l0 :: rest).length = rel.length then
            parseSegLists (.arr l0 :: rest)
          else .error errSegArity

/-- The `props` parsing of `restoreAnnotation`: missing gives the schema
defaults; otherwise the arity must match the schema. -/
def parseProps (specs : List PropSpec) (f : Option (List Int)) :
    Except String (List Int) :=
  match f with
  | none => .ok (specs.map (fun sp => sp.default))
  | some l => if l.length = specs.length then .ok l else .error errPropsArity

/-- Modelled from the spec: `parseFixedLengthArray(new Float32Array(rank),
x, check)` requires the field to be present, of length `rank`, with every
component accepted by the element check. -/
def parseFixedLenVec (rank : Nat) (check : Nat → Bool) (f : Option (List Nat)) :
    Except String (List Nat) :=
  match f with
  | none => .error errMissingVec
  | some l =>
      if l.length = rank then
        if l.all check then .ok l else .error errBadFloat
      else .error errVecLen

/-- The per-kind `restoreState` of the geometry handlers: one or two
rank-length finite vectors, ellipsoid radii additionally non-negative. -/
def restoreGeom (t : AnnotationType) (obj : AnnJsonIn) (rank : Nat) :
    Except String Geom :=
  match t with
  | .POINT => do
      let p ← parseFixedLenVec rank finiteF32B obj.point
      .ok (.point p)
  | .LINE => do
      let vA ← parseFixedLenVec rank finiteF32B obj.pointA
      let vB ← parseFixedLenVec rank finiteF32B obj.pointB
      .ok (.line vA vB)
  | .AXIS_ALIGNED_BOUNDING_BOX => do
      let vA ← parseFixedLenVec rank finiteF32B obj.pointA
      let vB ← parseFixedLenVec rank finiteF32B obj.pointB
      .ok (.box vA vB)
  | .ELLIPSOID => do
      let c ← parseFixedLenVec rank finiteF32B obj.center
      let r ← parseFixedLenVec rank nonNegF32B obj.radii
      .ok (.ellipsoid c r)

/-- `restoreAnnotation(obj, schema, allowMissingId)`: parse the type tag, the
id (generated — modelled by `genId` — when permitted and absent or empty),
the related segments, the property values, the optional description, then
the geometry.  The first failure aborts with that error. -/
def restoreAnn (obj : AnnJsonIn) (schema : Schema) (allowMissingId : Bool)
    (genId : String) : Except String Ann := do
  let t ← match obj.typeField with
    | some s => parseEnumTag s
    | none => .error errBadType
  let theId ← match obj.id with
    | some i => .ok (if i = emptyStr then genId else i)
    | none => if allowMissingId then .ok genId else .error errMissingId
  let segs ← parseSegments schema.relationships obj.segments
  let props ← parseProps schema.properties obj.props
  let g ← restoreGeom t obj schema.rank
  .ok { id := theId,
        description := match obj.description with
          | some d => some (some d)
          | none => none,
        relatedSegments := some segs,
        properties := props,
        geometry := g }

/-- The record-installation loop of `restoreState`: records are parsed and
installed one at a time; the first parse failure stops the loop, leaving the
records already installed. -/
def restoreLoop (schema : Schema) (genId : String) :
    List AnnJsonIn → List (String × Ann) → List (String × Ann) × Option String
  | [], m => (m, none)
  | x :: rest, m =>
      match restoreAnn x schema false genId with
      | .ok a => restoreLoop schema genId rest (mapSet m a.id a)
      | .error e => (m, some e)

/-- `restoreState(obj)`: clear the collection and the pending set, install
the parsed records one by one, and — only when every record parsed — re-point
every live reference at the new contents, dispatching each reference's
`changed` and then the store's `changed`.  A parse failure propagates as the
third component, with the loop's partial map left installed and no
notification dispatched. -/
def restoreState (s : SourceState) (obj : Option (List AnnJsonIn)) (genId : String) :
    SourceState × List SEvent × Option String :=
  let pr := match obj with
    | none => (([] : List (String × Ann)), (none : Option String))
    | some l => restoreLoop s.schema genId l []
  match pr.2 with
  | some e => ({ s with annotationMap := pr.1, pending := [] }, [], some e)
  | none =>
      let s2 := { s with annotationMap := pr.1, pending := [], references := s.references.map (fun ent => (ent.1, pr.1.lookup ent.1)) }
      (s2, (s.references.map (fun ent => SEvent.refChanged ent.1)) ++ [SEvent.changed], none)

/-- A well-formed persisted point record with id `a`. -/
def jGood : AnnJsonIn :=
  { typeField := some "point", id := some "a", description := none,
    segments := none, props := none, point := some [0],
    pointA := none, pointB := none, center := none, radii := none }

/-- A malformed persisted point record (missing the required `point`
vector). -/
def jBad : AnnJsonIn :=
  { typeField := some "point", id := some "b", description := none,
    segments := none, props := none, point := none,
    pointA := none, pointB := none, center := none, radii := none }

/-- The parse of `jGood` over `sc0`. -/
def annC6 : Ann :=
  { id := "a", description := none, relatedSegments := some [], properties := [],
    geometry := .point [0] }

/-- C6 counterexample: restoring `[jGood, jBad]` into the empty store throws
(on `jBad`'s missing vector) yet leaves `jGood`'s record installed — the
restore is partially applied, refuting the claimed atomicity. -/
theorem c6_restore_not_atomic_counterexample :
    (restoreState st0 (some [jGood, jBad]) "gen").2.2 = some errMissingVec ∧
    (restoreState st0 (some [jGood, jBad]) "gen").1.annotationMap.lookup "a"
      = some annC6 := by
  constructor <;> decide

lemma restoreLoop_append (schema : Schema) (genId : String) (bad : AnnJsonIn)
    (e : String) (rest : List AnnJsonIn)
    (hbad : restoreAnn bad schema false genId = .error e) :
    ∀ (pre : List AnnJsonIn) (m : List (String × Ann)),
      (∀ x ∈ pre, (restoreAnn x schema false genId).isOk = true) →
      restoreLoop schema genId (pre ++ bad :: rest) m
        = ((restoreLoop schema genId pre m).1, some e) := by
  intro pre
  induction pre with
  | nil =>
      intro m _
      simp only [List.nil_append]
      simp [restoreLoop, hbad]
  | cons x pre' ih =>
      intro m hok
      have hx := hok x (List.mem_cons_self x pre')
      cases hres : restoreAnn x schema false genId with
      | error e' => rw [hres] at hx; simp [Except.isOk, Except.toBool] at hx
      | ok a =>
          simp only [List.cons_append, restoreLoop, hres]
          exact ih (mapSet m a.id a) (fun y hy => hok y (List.mem_cons_of_mem x hy))

/-- C6 (amended).  `restoreState` on a persisted array whose first malformed
record follows a prefix of well-formed records throws that record's parse
error and leaves exactly the prefix's records installed (prior contents
cleared, pending cleared, references untouched, no notification dispatched) —
the restore aborts but is not atomic. -/
theorem c6_restore_prefix_applied (s : SourceState) (pre : List AnnJsonIn)
    (bad : AnnJsonIn) (rest : List AnnJsonIn) (genId e : String)
    (hpre : ∀ x ∈ pre, (restoreAnn x s.schema false genId).isOk = true)
    (hbad : restoreAnn bad s.schema false genId = .error e) :
    restoreState s (some (pre ++ bad :: rest)) genId
      = ({ s with annotationMap := (restoreLoop s.schema genId pre []).1, pending := [] },
         [], some e) := by
  simp [restoreState, restoreLoop_append s.schema genId bad e rest hbad pre [] hpre]

/-- Witness for the amended C6: prefix `[jGood]`, malformed `jBad`. -/
theorem c6_restore_prefix_applied_witness :
    restoreState st0 (some ([jGood] ++ jBad :: [])) "gen"
      = ({ st0 with annotationMap := (restoreLoop st0.schema "gen" [jGood] []).1, pending := [] }, [], some errMissingVec) :=
  c6_restore_prefix_applied st0 [jGood] jBad [] "gen" errMissingVec
    (by intro x hx; rw [List.mem_singleton.mp hx]; decide) rfl

end NG
